import Mathlib

/-!
# WebLinkCollector — verification of the traversal core

Shallow embedding of the WebLinkCollector core (URL filter, link extractor,
fetcher, traversal orchestrator) from the TypeScript source, together with
theorems settling the specification claims.

External platform capabilities (the WHATWG `URL` parser, the JavaScript
`RegExp` engine, the HTTP client, cheerio's CSS-selector engine and
relative-URL resolution) are modelled either by an explicit executable model
(`parseUrlModel` for `new URL` on hierarchical `scheme://host...` URLs) or by
function parameters (`regexTest`, `matchesSel`, `resolve`, `http`).
-/

namespace WebLinkCollector

/-! ## String helpers (JavaScript `includes` / `startsWith` / `trim`) -/

/-- Is `p` a prefix of `l`?  Models JavaScript `String.prototype.startsWith`
on character lists. -/
def charsPrefixOf : List Char → List Char → Bool
  | [], _ => true
  | _ :: _, [] => false
  | a :: p, b :: l => a == b && charsPrefixOf p l

/-- `charsPrefixOf` arguments: pattern first, text second. -/
def charsInfixOf (p : List Char) : List Char → Bool
  | [] => charsPrefixOf p []
  | c :: t => charsPrefixOf p (c :: t) || charsInfixOf p t

/-- JavaScript `text.includes(sub)`. -/
def strContains (text sub : String) : Bool :=
  charsInfixOf sub.data text.data

/-- JavaScript `text.startsWith(p)`. -/
def strStartsWith (text p : String) : Bool :=
  charsPrefixOf p.data text.data

/-- JavaScript whitespace characters recognised by `String.prototype.trim`
(restricted to the common ASCII ones; sufficient for the model). -/
def isWsChar (c : Char) : Bool :=
  c == ' ' || c == '\t' || c == '\n' || c == '\r' || c == '\x0b' || c == '\x0c'

/-- JavaScript `s.trim()`. -/
def jsTrim (s : String) : String :=
  ⟨((s.data.dropWhile isWsChar).reverse.dropWhile isWsChar).reverse⟩

/-- Lower-case a string character-wise (models `String.prototype.toLowerCase`
for the ASCII content the code compares against). -/
def lowerStr (s : String) : String :=
  ⟨s.data.map Char.toLower⟩

/-! ## Model of the WHATWG `new URL(url)` parser

The source relies on the platform `URL` class.  `parseUrlModel` is an
executable model of `new URL` for ordinary hierarchical URLs
(`scheme://host[:port]/path?query#fragment` without userinfo or
percent-encoding); every string outside this shape is treated as
unparseable (`none`), matching the `URL` constructor throwing. -/

/-- The components of a parsed URL that the source reads:
`protocol` (with trailing colon), `hostname`, `pathname`,
`searchParams` entries and `hash` (with leading `#`, or `""`). -/
structure UrlParts where
  protocol : String
  hostname : String
  pathname : String
  searchParams : List (String × String)
  hash : String
deriving DecidableEq, Repr

/-- Split a character list at the first occurrence of (non-empty) `sep`;
returns the part before and the part after. -/
def charsBreakOn (sep : List Char) : List Char → Option (List Char × List Char)
  | [] => if charsPrefixOf sep [] then some ([], []) else none
  | c :: t =>
    if charsPrefixOf sep (c :: t) then some ([], (c :: t).drop sep.length)
    else (charsBreakOn sep t).map (fun q => (c :: q.1, q.2))

/-- Split a character list on a separator character. -/
def splitOnChar (c : Char) : List Char → List (List Char)
  | [] => [[]]
  | x :: xs =>
    let r := splitOnChar c xs
    if x == c then [] :: r
    else
      match r with
      | [] => [[x]]
      | h :: t => (x :: h) :: t

/-- Parse `query` (without the leading `?`) into `searchParams` entries:
split on `&`, drop empty segments, split each segment at the first `=`
(bare keys get the empty value), as `URLSearchParams` does for
un-percent-encoded input. -/
def parseQuery (q : List Char) : List (String × String) :=
  ((splitOnChar '&' q).filter (fun seg => !seg.isEmpty)).map (fun seg =>
    let kv := seg.span (fun c => c != '=')
    match kv.2 with
    | '=' :: rest => (⟨kv.1⟩, ⟨rest⟩)
    | _ => (⟨kv.1⟩, ""))

/-- Model of `new URL(url)` (see section header for the modelled subset). -/
def parseUrlModel (url : String) : Option UrlParts :=
  match charsBreakOn "://".data url.data with
  | none => none
  | some (schemeCs, rest) =>
    if schemeCs.isEmpty then none
    else if !(schemeCs.all fun c => c.isAlphanum || c == '+' || c == '-' || c == '.') then none
    else if !(match schemeCs with | c :: _ => c.isAlpha | [] => false) then none
    else
      let auth := rest.takeWhile (fun c => c != '/' && c != '?' && c != '#')
      let tail := rest.dropWhile (fun c => c != '/' && c != '?' && c != '#')
      if auth.isEmpty then none
      else if auth.contains '@' then none
      else
        let host := (auth.takeWhile (fun c => c != ':')).map Char.toLower
        let pathCs := tail.takeWhile (fun c => c != '?' && c != '#')
        let rest2 := tail.dropWhile (fun c => c != '?' && c != '#')
        let pathname : String := if pathCs.isEmpty then "/" else ⟨pathCs⟩
        let queryCs :=
          match rest2 with
          | '?' :: r => r.takeWhile (fun c => c != '#')
          | _ => []
        let fragCs :=
          match rest2 with
          | '?' :: r => r.dropWhile (fun c => c != '#')
          | other => other
        let hashStr : String :=
          match fragCs with
          | '#' :: f => if f.isEmpty then "" else ⟨'#' :: f⟩
          | _ => ""
        some { protocol := ⟨schemeCs ++ [':']⟩
               hostname := ⟨host⟩
               pathname := pathname
               searchParams := parseQuery queryCs
               hash := hashStr }

/-! ## URL Filter (`src/filter.ts`) -/

/-- `src/filter.ts` `DEFAULT_EXCLUDED_PATHS`. -/
def DEFAULT_EXCLUDED_PATHS : List String :=
  ["/admin", "/login", "/logout", "/signin", "/signout", "/register",
   "/account", "/wp-admin", "/wp-login", "/cart", "/checkout"]

/-- A filter field of TypeScript type `string | string[]`. -/
inductive StrOrList where
  | str (s : String)
  | list (l : List String)
deriving DecidableEq, Repr

/-- `src/types.ts` `Filter`: optional fields `domain`, `pathPrefix`,
`regex`, `keywords`, each `string | string[]`. -/
structure Filter where
  domain : Option StrOrList
  pathPrefix : Option StrOrList
  regex : Option StrOrList
  keywords : Option StrOrList
deriving DecidableEq, Repr

/-- JavaScript truthiness of an optional `string | string[]` field:
`undefined` and `""` are falsy, arrays (even empty) are truthy.
Models the `if (filter.domain)` guards. -/
def fieldTruthy : Option StrOrList → Bool
  | none => false
  | some (.str s) => !s.isEmpty
  | some (.list _) => true

/-- `url === targetUrl` short-circuit, then check every `searchParams`
value and the hash fragment for `targetUrl` as a substring; parse failure
is caught and yields `false`.  Embeds `isUrlInQueryParams` from
`src/filter.ts`. -/
def isUrlInQueryParams (url targetUrl : String) : Bool :=
  if url == targetUrl then false
  else
    match parseUrlModel url with
    | none => false
    | some parsedUrl =>
      parsedUrl.searchParams.any (fun kv => strContains kv.2 targetUrl)
      || (!parsedUrl.hash.isEmpty && strContains parsedUrl.hash targetUrl)

/-- One pass of the filter `for`-loop body of `isUrlAllowed`: the running
`conditionMatches` flag over the four guarded field checks.
`regexTest pattern text` stands for the platform `new RegExp(pattern).test(text)`. -/
def conditionMatches (regexTest : String → String → Bool)
    (url hostname pathname : String) (f : Filter) : Bool :=
  let cm := true
  -- Domain filter
  let cm :=
    cond (fieldTruthy f.domain)
      (match f.domain with
       | some (.list ds) => cm && ds.any (fun domain => strContains hostname domain)
       | some (.str d) => cm && strContains hostname d
       | none => cm)
      cm
  -- Path prefix filter
  let cm :=
    cond (cm && fieldTruthy (Filter.pathPrefix f))
      (match Filter.pathPrefix f with
       | some (.list ps) => ps.any (fun p => strStartsWith pathname p)
       | some (.str p) => strStartsWith pathname p
       | none => cm)
      cm
  -- Regex filter
  let cm :=
    cond (cm && fieldTruthy f.regex)
      (match f.regex with
       | some (.list rs) => rs.any (fun pat => regexTest pat url)
       | some (.str pat) => regexTest pat url
       | none => cm)
      cm
  -- Keywords filter
  let cm :=
    cond (cm && fieldTruthy f.keywords)
      (match f.keywords with
       | some (.list ks) => ks.any (fun k => strContains url k)
       | some (.str k) => strContains url k
       | none => cm)
      cm
  cm

/-- Embeds `isUrlAllowed` from `src/filter.ts`: parse (fail closed),
default-exclusion paths, optional `baseUrl` self-reference check, then
the OR-of-AND filter conditions. -/
def isUrlAllowed (regexTest : String → String → Bool) (url : String)
    (filters : Option (List Filter)) (baseUrl : Option String) : Bool :=
  match parseUrlModel url with
  | none => false
  | some parsedUrl =>
    let hostname := parsedUrl.hostname
    let pathname := parsedUrl.pathname
    if DEFAULT_EXCLUDED_PATHS.any (fun excludedPath => strContains pathname excludedPath) then
      false
    else if (match baseUrl with
             | some b => isUrlInQueryParams url b
             | none => false) then
      false
    else
      match filters with
      | none => true
      | some fs =>
        if fs.isEmpty then true
        else fs.any (fun f => conditionMatches regexTest url hostname pathname f)

/-! ## Link Extractor (`src/parser.ts`)

cheerio's DOM is modelled by `DomNode` trees; its CSS-selector engine is a
function parameter `matchesSel : String → DomNode → Bool` (does this node
match this selector string), with `$(sel)` returning the matching nodes in
document order.  `new URL(rel, base).toString()` (relative resolution inside
`resolveUrl`) is a function parameter `resolve`. -/

/-- A DOM element: tag name, attributes, children. -/
inductive DomNode where
  | mk (tag : String) (attrs : List (String × String)) (children : List DomNode)

def DomNode.tag : DomNode → String
  | .mk t _ _ => t

def DomNode.attrs : DomNode → List (String × String)
  | .mk _ a _ => a

def DomNode.children : DomNode → List DomNode
  | .mk _ _ c => c

/-- `$(el).attr(name)`: the first attribute with the given name. -/
def DomNode.attr (n : DomNode) (name : String) : Option String :=
  (n.attrs.find? (fun kv => kv.1 == name)).map (fun kv => kv.2)

mutual
/-- All nodes of a tree in document (pre-)order. -/
def allNodes : DomNode → List DomNode
  | .mk t a c => .mk t a c :: allNodesList c

/-- All nodes of a forest in document order. -/
def allNodesList : List DomNode → List DomNode
  | [] => []
  | n :: ns => allNodes n ++ allNodesList ns
end

/-- Does the node match the cheerio selector `a[href]`? -/
def isAnchorWithHref (n : DomNode) : Bool :=
  n.tag == "a" && (n.attr "href").isSome

/-- Does the node match the cheerio selector `a[href], link[href]`? -/
def isLinkCandidate (n : DomNode) : Bool :=
  (n.tag == "a" || n.tag == "link") && (n.attr "href").isSome

/-- `$(sel)`: every node of the document matching the selector, in document
order (`matchesSel` models cheerio's selector engine). -/
def selectAll (matchesSel : String → DomNode → Bool) (sel : String)
    (doc : List DomNode) : List DomNode :=
  (allNodesList doc).filter (matchesSel sel)

/-- `selected.find('a[href]')`: descendants (excluding the roots) matching
`a[href]`.  cheerio deduplicates by node identity; duplicates from nested
roots cannot change the extracted URL set, so they are kept here. -/
def findAnchors (selected : List DomNode) : List DomNode :=
  (selected.map (fun n => (allNodesList n.children).filter isAnchorWithHref)).flatten

/-- `$('a[href], link[href]')` over the whole document. -/
def allLinkCandidates (doc : List DomNode) : List DomNode :=
  (allNodesList doc).filter isLinkCandidate

/-- The `linkElements` collection computed by `extractLinksFromHtml`
(`src/parser.ts`): the selector tier (with the
`cssSelector.includes('a') || cssSelector.includes('A')` direct-use branch),
the element tier, and the all-links fallback. -/
def linkElementsOf (matchesSel : String → DomNode → Bool) (doc : List DomNode)
    (cssSelector : Option String) (element : Option String) : List DomNode :=
  match cssSelector with
  | some sel =>
    let selectedElements := selectAll matchesSel sel doc
    if !selectedElements.isEmpty then
      if strContains sel "a" || strContains sel "A" then selectedElements
      else findAnchors selectedElements
    else
      match element with
      | some el =>
        let selectedTags := selectAll matchesSel el doc
        if !selectedTags.isEmpty then findAnchors selectedTags
        else allLinkCandidates doc
      | none => allLinkCandidates doc
  | none =>
    match element with
    | some el =>
      let selectedTags := selectAll matchesSel el doc
      if !selectedTags.isEmpty then findAnchors selectedTags
      else allLinkCandidates doc
    | none => allLinkCandidates doc

/-- `isValidUrl` from `src/parser.ts`: non-empty and not a
`javascript:`/`mailto:`/`tel:`/`sms:`/`file:`/`data:` URL. -/
def isValidUrl (url : String) : Bool :=
  if url.isEmpty then false
  else !(["javascript:", "mailto:", "tel:", "sms:", "file:", "data:"].any
          (fun proto => strStartsWith url proto))

/-- JavaScript `Set.prototype.add` materialised on insertion-ordered lists:
append if absent. -/
def setAdd (l : List String) (u : String) : List String :=
  if l.contains u then l else l ++ [u]

/-- Embeds `extractLinksFromHtml` (`src/parser.ts`): iterate the scoped
`linkElements`, keep valid hrefs, resolve against `baseUrl`, drop
self-referential share links (`isUrlInQueryParams`), accumulate into a set. -/
def extractLinksFromHtml (resolve : String → String → Option String)
    (matchesSel : String → DomNode → Bool) (doc : List DomNode) (baseUrl : String)
    (cssSelector : Option String) (element : Option String) : List String :=
  (linkElementsOf matchesSel doc cssSelector element).foldl (fun links el =>
    match el.attr "href" with
    | none => links
    | some href =>
      if isValidUrl href then
        match resolve href baseUrl with
        | none => links
        | some absoluteUrl =>
          if !isUrlInQueryParams absoluteUrl baseUrl then setAdd links absoluteUrl
          else links
      else links) []

/-! ## Fetcher (`src/fetcher.ts`, Bun-optimized variant)

The HTTP client is a function parameter `http : String → HttpOutcome`: a
request either rejects (transport error — DNS failure, timeout, reset) or
yields a response with its `ok` flag, optional `content-type` header, body
text and post-redirect URL.  The pacing delay and logging are timing-only
effects with no influence on the returned value and are not modelled. -/

/-- The outcome of `await fetch(url, ...)` as observed by the code. -/
inductive HttpOutcome where
  | transportError (message : String)
  | response (ok : Bool) (contentType : Option String) (body : String) (finalUrl : String)

/-- Embeds `fetchUrlContent` (`src/fetcher.ts`): empty-URL guard,
`new URL` validation with http/https protocol check, HTTP status check,
`content-type` must contain `text/html` (case-insensitively), body must be
non-empty after trimming; every failure (including a thrown transport
error) returns `none`. -/
def fetchUrlContent (http : String → HttpOutcome) (url : String) :
    Option (String × String) :=
  if (jsTrim url).isEmpty then none
  else
    match parseUrlModel url with
    | none => none
    | some parsedUrl =>
      if !(["http:", "https:"].contains parsedUrl.protocol) then none
      else
        match http url with
        | .transportError _ => none
        | .response ok contentType body finalUrl =>
          if !ok then none
          else
            match contentType with
            | none => none
            | some ct =>
              if !(strContains (lowerStr ct) "text/html") then none
              else if (jsTrim body).isEmpty then none
              else some (body, finalUrl)

/-! ## Traversal Orchestrator (`src/collector.ts`) -/

/-- `src/types.ts` `LinkRelationship`. -/
structure LinkRelationship where
  source : String
  found : String
deriving DecidableEq, Repr

/-- `src/types.ts` `ErrorEntry`. -/
structure ErrorEntry where
  url : String
  errorType : String
  message : String
deriving DecidableEq, Repr

/-- `src/types.ts` `Stats` (`startTime`/`endTime`/`durationMs` are
wall-clock readings taken outside the pure model and are omitted). -/
structure Stats where
  totalUrlsScanned : Nat
  totalUrlsCollected : Nat
  maxDepthReached : Nat
deriving DecidableEq, Repr

/-- `src/types.ts` `CollectionResult`. -/
structure CollectionResult where
  initialUrl : String
  depth : Nat
  allCollectedUrls : List String
  linkRelationships : List LinkRelationship
  errors : List ErrorEntry
  stats : Stats
deriving DecidableEq, Repr

/-- `src/types.ts` `InitialUrlParams` (delayMs and logLevel affect only
timing and logging and are omitted from the pure model). -/
structure InitialUrlParams where
  initialUrl : String
  depth : Nat
  filters : Option (List Filter)
  selector : Option String
  element : Option String

/-- The mutable accumulators of `collectWebLinks`: `visitedUrls` and
`allCollectedUrls` (JS `Set`s, as insertion-ordered duplicate-free lists),
the relationship and error lists, and the numeric stats. -/
structure CrawlState where
  visitedUrls : List String
  allCollectedUrls : List String
  linkRelationships : List LinkRelationship
  errors : List ErrorEntry
  totalUrlsScanned : Nat
  totalUrlsCollected : Nat
  maxDepthReached : Nat
deriving DecidableEq, Repr

/-- Embeds the inner recursive `collectLinks` of `src/collector.ts`.

`fetchF` stands for `fetchUrlContent` (network included); `extractF` for
`extractLinksFromHtml` composed with `cheerio.load` — it receives the html,
the base URL and the selector/element arguments and returns the extracted
links, or `.error` when extraction throws (the `ParseError` catch);
`regexTest` is threaded into the URL filter.  The pacing delay at the head
of the function only suspends and is not modelled.  `fuel` bounds the
recursion depth; the orchestrator passes `maxDepth + 1`, which the depth
guard (`currentDepth >= maxDepth` stops before recursing) keeps from ever
reaching zero. -/
def collectLinks (fetchF : String → Option (String × String))
    (extractF : String → String → Option String → Option String → Except String (List String))
    (regexTest : String → String → Bool) (filters : Option (List Filter))
    (selector element : Option String) (maxDepth : Nat) :
    Nat → String → Nat → Option String → CrawlState → CrawlState
  | 0, _, _, _, st => st
  | fuel + 1, url, currentDepth, sourceUrl, st =>
    -- Skip if we've already visited this URL
    if st.visitedUrls.contains url then st
    else
      -- Mark as visited to avoid cycles
      let st := { st with visitedUrls := setAdd st.visitedUrls url,
                          totalUrlsScanned := st.totalUrlsScanned + 1 }
      -- Only apply filter if not the initial URL
      let allowedByFilter :=
        if currentDepth > 0 then isUrlAllowed regexTest url filters none else true
      if allowedByFilter then
        let st := { st with allCollectedUrls := setAdd st.allCollectedUrls url,
                            totalUrlsCollected := st.totalUrlsCollected + 1 }
        -- Record link relationship if there's a source
        let st :=
          match sourceUrl with
          | some src => { st with linkRelationships :=
                            st.linkRelationships ++
                              [({ source := src, found := url } : LinkRelationship)] }
          | none => st
        -- Update max depth reached
        let st :=
          { st with maxDepthReached :=
              if currentDepth > st.maxDepthReached then currentDepth
              else st.maxDepthReached }
        -- Stop recursion if we've reached the maximum depth
        if currentDepth ≥ maxDepth then st
        else
          match fetchF url with
          | none =>
            { st with errors :=
                st.errors ++ [⟨url, "FetchError", "Failed to fetch URL content"⟩] }
          | some (html, finalUrl) =>
            -- Use selector and element only for the initial page (depth 0)
            let useSelector := if currentDepth == 0 then selector else none
            let useElement := if currentDepth == 0 then element else none
            match extractF html finalUrl useSelector useElement with
            | .error msg =>
              { st with errors :=
                  st.errors ++ [⟨finalUrl, "ParseError", "Error parsing HTML: " ++ msg⟩] }
            | .ok links =>
              -- Process each extracted link sequentially
              links.foldl (fun s link =>
                collectLinks fetchF extractF regexTest filters selector element
                  maxDepth fuel link (currentDepth + 1) (some finalUrl) s) st
      else st

/-- Embeds `collectWebLinks` (`src/collector.ts`): clamp the depth to 5,
run the recursion from the initial URL at depth 0 with no source, and fold
the accumulators into the result.  The top-level `CollectionError` catch
cannot fire in the pure model (`collectLinks` is total). -/
def collectWebLinks (fetchF : String → Option (String × String))
    (extractF : String → String → Option String → Option String → Except String (List String))
    (regexTest : String → String → Bool) (params : InitialUrlParams) :
    CollectionResult :=
  -- Maximum recursion depth (cap at 5)
  let maxDepth := min params.depth 5
  let st0 : CrawlState := ⟨[], [], [], [], 0, 0, 0⟩
  let st := collectLinks fetchF extractF regexTest params.filters params.selector
    params.element maxDepth (maxDepth + 1) params.initialUrl 0 none st0
  { initialUrl := params.initialUrl
    depth := maxDepth
    allCollectedUrls := st.allCollectedUrls
    linkRelationships := st.linkRelationships
    errors := st.errors
    stats := { totalUrlsScanned := st.totalUrlsScanned
               totalUrlsCollected := st.totalUrlsCollected
               maxDepthReached := st.maxDepthReached } }

/-! ## Helper lemmas -/

lemma mem_setAdd (l : List String) (u v : String) :
    v ∈ setAdd l u ↔ v ∈ l ∨ v = u := by
  unfold setAdd
  split
  · rename_i h
    constructor
    · exact fun hv => Or.inl hv
    · rintro (hv | rfl)
      · exact hv
      · simpa using h
  · simp [List.mem_append]

lemma mem_setAdd_self (l : List String) (u : String) : u ∈ setAdd l u :=
  (mem_setAdd l u u).mpr (Or.inr rfl)

lemma mem_setAdd_of_mem {l : List String} {v : String} (h : v ∈ l) (u : String) :
    v ∈ setAdd l u :=
  (mem_setAdd l u v).mpr (Or.inl h)

lemma setAdd_nodup {l : List String} (h : l.Nodup) (u : String) :
    (setAdd l u).Nodup := by
  unfold setAdd
  split
  · exact h
  · rename_i hc
    refine List.Nodup.append h (List.nodup_singleton u) ?_
    intro a ha hb
    rcases List.mem_singleton.mp hb with rfl
    exact hc (by simpa using ha)

lemma foldl_preserve {α β : Type} (f : β → α → β) (P : β → Prop)
    (h : ∀ s a, P s → P (f s a)) :
    ∀ (l : List α) (s : β), P s → P (l.foldl f s)
  | [], _, hs => hs
  | a :: l, s, hs => foldl_preserve f P h l (f s a) (h s a hs)

/-- Along any run of `collectLinks`, the collected-URL set only grows. -/
lemma collectLinks_collected_mono (fetchF : String → Option (String × String))
    (extractF : String → String → Option String → Option String → Except String (List String))
    (regexTest : String → String → Bool) (filters : Option (List Filter))
    (selector element : Option String) (maxDepth : Nat) :
    ∀ (fuel : Nat) (url : String) (currentDepth : Nat) (sourceUrl : Option String)
      (st : CrawlState) (u : String), u ∈ st.allCollectedUrls →
      u ∈ (collectLinks fetchF extractF regexTest filters selector element maxDepth
            fuel url currentDepth sourceUrl st).allCollectedUrls := by
  intro fuel
  induction fuel with
  | zero => intro url d src st u hu; simpa [collectLinks] using hu
  | succ fuel ih =>
    intro url d src st u hu
    simp only [collectLinks]
    repeat' split
    all_goals
      first
      | exact hu
      | exact mem_setAdd_of_mem hu url
      | (apply foldl_preserve _ (fun s => u ∈ s.allCollectedUrls)
          (fun s a hs => ih a (d + 1) _ s u hs);
         exact mem_setAdd_of_mem hu url)

/-- The crawl-state invariant behind the stats and uniqueness claims:
the collected counter never exceeds the scanned counter, the collected
list is duplicate-free, and every recorded relationship's `found` URL is
in the collected list. -/
def CrawlInv (st : CrawlState) : Prop :=
  st.totalUrlsCollected ≤ st.totalUrlsScanned ∧
  st.allCollectedUrls.Nodup ∧
  ∀ r ∈ st.linkRelationships, r.found ∈ st.allCollectedUrls

lemma rels_found_sub {rels : List LinkRelationship} {col col' : List String}
    (h : ∀ r ∈ rels, r.found ∈ col) (src url : String)
    (hsub : ∀ v ∈ col, v ∈ col') (hurl : url ∈ col') :
    ∀ r ∈ rels ++ [{ source := src, found := url : LinkRelationship }],
      r.found ∈ col' := by
  intro r hr
  rcases List.mem_append.mp hr with h1 | h1
  · exact hsub _ (h r h1)
  · rcases List.mem_singleton.mp h1 with rfl
    exact hurl

/-- `collectLinks` preserves `CrawlInv`. -/
lemma collectLinks_inv (fetchF : String → Option (String × String))
    (extractF : String → String → Option String → Option String → Except String (List String))
    (regexTest : String → String → Bool) (filters : Option (List Filter))
    (selector element : Option String) (maxDepth : Nat) :
    ∀ (fuel : Nat) (url : String) (currentDepth : Nat) (sourceUrl : Option String)
      (st : CrawlState), CrawlInv st →
      CrawlInv (collectLinks fetchF extractF regexTest filters selector element maxDepth
        fuel url currentDepth sourceUrl st) := by
  intro fuel
  induction fuel with
  | zero => intro url d src st hst; simpa [collectLinks] using hst
  | succ fuel ih =>
    intro url d src st hst
    simp only [collectLinks]
    repeat' split
    all_goals
      first
      | exact hst
      | exact ⟨Nat.le_succ_of_le hst.1, hst.2.1, hst.2.2⟩
      | exact ⟨Nat.succ_le_succ hst.1, setAdd_nodup hst.2.1 _,
          fun r hr => mem_setAdd_of_mem (hst.2.2 r hr) _⟩
      | exact ⟨Nat.succ_le_succ hst.1, setAdd_nodup hst.2.1 _,
          rels_found_sub hst.2.2 _ _ (fun v hv => mem_setAdd_of_mem hv _)
            (mem_setAdd_self _ _)⟩
      | (apply foldl_preserve _ CrawlInv (fun s a hs => ih a (d + 1) _ s hs);
         first
         | exact ⟨Nat.succ_le_succ hst.1, setAdd_nodup hst.2.1 _,
             fun r hr => mem_setAdd_of_mem (hst.2.2 r hr) _⟩
         | exact ⟨Nat.succ_le_succ hst.1, setAdd_nodup hst.2.1 _,
             rels_found_sub hst.2.2 _ _ (fun v hv => mem_setAdd_of_mem hv _)
               (mem_setAdd_self _ _)⟩)

lemma rels_append {x : LinkRelationship} {rels : List LinkRelationship}
    {P : LinkRelationship → Prop} (h : ∀ r ∈ rels, P r) (hx : P x) :
    ∀ r ∈ rels ++ [x], P r := by
  intro r hr
  rcases List.mem_append.mp hr with h1 | h1
  · exact h r h1
  · rcases List.mem_singleton.mp h1 with rfl
    exact hx

/-- Every recorded relationship's `source` URL is in the collected list. -/
def SourcesInv (st : CrawlState) : Prop :=
  ∀ r ∈ st.linkRelationships, r.source ∈ st.allCollectedUrls

/-- When the fetch function never reports a redirect (its `finalUrl` is
always the requested URL), every relationship recorded by `collectLinks`
has its `source` in the collected set, provided the incoming state does
and the pending `sourceUrl` (if any) is already collected. -/
lemma collectLinks_source_mem (fetchF : String → Option (String × String))
    (extractF : String → String → Option String → Option String → Except String (List String))
    (regexTest : String → String → Bool) (filters : Option (List Filter))
    (selector element : Option String) (maxDepth : Nat)
    (hnr : ∀ u p, fetchF u = some p → p.2 = u) :
    ∀ (fuel : Nat) (url : String) (currentDepth : Nat) (sourceUrl : Option String)
      (st : CrawlState),
      SourcesInv st →
      (∀ s, sourceUrl = some s → s ∈ st.allCollectedUrls) →
      SourcesInv (collectLinks fetchF extractF regexTest filters selector element maxDepth
        fuel url currentDepth sourceUrl st) := by
  intro fuel
  induction fuel with
  | zero => intro url d src st hq _; simpa [collectLinks] using hq
  | succ fuel ih =>
    intro url d src st hq hsrc
    -- the relationship list after admitting `url` (pushed only when a source exists)
    have hq2 : SourcesInv {
        visitedUrls := setAdd st.visitedUrls url
        allCollectedUrls := setAdd st.allCollectedUrls url
        linkRelationships :=
          match src with
          | some s0 => st.linkRelationships ++
              [({ source := s0, found := url } : LinkRelationship)]
          | none => st.linkRelationships
        errors := st.errors
        totalUrlsScanned := st.totalUrlsScanned + 1
        totalUrlsCollected := st.totalUrlsCollected + 1
        maxDepthReached := if d > st.maxDepthReached then d else st.maxDepthReached } := by
      cases src with
      | none => exact fun r hr => mem_setAdd_of_mem (hq r hr) url
      | some s0 =>
        exact rels_append (fun r hr => mem_setAdd_of_mem (hq r hr) url)
          (mem_setAdd_of_mem (hsrc s0 rfl) url)
    cases src with
    | none =>
      simp only [collectLinks]
      by_cases hv : st.visitedUrls.contains url = true
      · rw [if_pos hv]; exact hq
      · rw [if_neg hv]
        by_cases hallow : (if d > 0 then isUrlAllowed regexTest url filters none
            else true) = true
        · rw [if_pos hallow]
          by_cases hdm : d ≥ maxDepth
          · rw [if_pos hdm]; exact hq2
          · rw [if_neg hdm]
            cases hfetch : fetchF url with
            | none => exact hq2
            | some p =>
              obtain ⟨html, finalUrl⟩ := p
              have hfu : finalUrl = url := hnr url _ hfetch
              dsimp only
              cases hext : extractF html finalUrl
                  (if (d == 0) = true then selector else none)
                  (if (d == 0) = true then element else none) with
              | error msg => exact hq2
              | ok links =>
                exact (foldl_preserve _
                    (fun s => SourcesInv s ∧ url ∈ s.allCollectedUrls)
                    (fun s a hs => ⟨ih a (d + 1) _ s hs.1
                        (fun t ht => by
                          rw [hfu] at ht
                          exact (Option.some.inj ht) ▸ hs.2),
                      collectLinks_collected_mono fetchF extractF regexTest filters
                        selector element maxDepth fuel a (d + 1) _ s url hs.2⟩)
                    _ _ ⟨hq2, mem_setAdd_self _ _⟩).1
        · rw [if_neg hallow]; exact hq
    | some s0 =>
      simp only [collectLinks]
      by_cases hv : st.visitedUrls.contains url = true
      · rw [if_pos hv]; exact hq
      · rw [if_neg hv]
        by_cases hallow : (if d > 0 then isUrlAllowed regexTest url filters none
            else true) = true
        · rw [if_pos hallow]
          by_cases hdm : d ≥ maxDepth
          · rw [if_pos hdm]; exact hq2
          · rw [if_neg hdm]
            cases hfetch : fetchF url with
            | none => exact hq2
            | some p =>
              obtain ⟨html, finalUrl⟩ := p
              have hfu : finalUrl = url := hnr url _ hfetch
              dsimp only
              cases hext : extractF html finalUrl
                  (if (d == 0) = true then selector else none)
                  (if (d == 0) = true then element else none) with
              | error msg => exact hq2
              | ok links =>
                exact (foldl_preserve _
                    (fun s => SourcesInv s ∧ url ∈ s.allCollectedUrls)
                    (fun s a hs => ⟨ih a (d + 1) _ s hs.1
                        (fun t ht => by
                          rw [hfu] at ht
                          exact (Option.some.inj ht) ▸ hs.2),
                      collectLinks_collected_mono fetchF extractF regexTest filters
                        selector element maxDepth fuel a (d + 1) _ s url hs.2⟩)
                    _ _ ⟨hq2, mem_setAdd_self _ _⟩).1
        · rw [if_neg hallow]; exact hq

/-- One step of the extraction loop, characterised: the accumulator gains
exactly the resolved URL of a valid, non-self-referential href. -/
lemma extract_step_mem (resolve : String → String → Option String) (baseUrl : String)
    (acc : List String) (n : DomNode) (u : String) :
    (u ∈ (match n.attr "href" with
          | none => acc
          | some href =>
            if isValidUrl href then
              match resolve href baseUrl with
              | none => acc
              | some absoluteUrl =>
                if !isUrlInQueryParams absoluteUrl baseUrl then setAdd acc absoluteUrl
                else acc
            else acc)) ↔
    (u ∈ acc ∨ ∃ h, n.attr "href" = some h ∧ isValidUrl h = true ∧
      resolve h baseUrl = some u ∧ isUrlInQueryParams u baseUrl = false) := by
  rcases hattr : n.attr "href" with _ | h
  · simp [hattr]
  · by_cases hval : isValidUrl h = true
    · rcases hres : resolve h baseUrl with _ | abs
      · simp [hattr, hval, hres]
      · by_cases hq : isUrlInQueryParams abs baseUrl = true
        · simp [hattr, hval, hres, hq]
          rintro rfl hf
          rw [hf] at hq
          simp at hq
        · have hq' : isUrlInQueryParams abs baseUrl = false := by simpa using hq
          simp [hattr, hval, hres, hq, mem_setAdd]
          constructor
          · rintro (h1 | rfl)
            · exact Or.inl h1
            · exact Or.inr ⟨rfl, hq'⟩
          · rintro (h1 | ⟨rfl, h2⟩)
            · exact Or.inl h1
            · exact Or.inr rfl
    · simp [hattr, hval]

/-- Membership in the extraction fold: a URL is produced iff some scoped
node's href is valid, resolves to it, and it is not a self-referential
share link. -/
lemma mem_extract_foldl (resolve : String → String → Option String) (baseUrl : String) :
    ∀ (l : List DomNode) (acc : List String) (u : String),
      (u ∈ l.foldl (fun links el =>
        match el.attr "href" with
        | none => links
        | some href =>
          if isValidUrl href then
            match resolve href baseUrl with
            | none => links
            | some absoluteUrl =>
              if !isUrlInQueryParams absoluteUrl baseUrl then setAdd links absoluteUrl
              else links
          else links) acc) ↔
      (u ∈ acc ∨ ∃ n ∈ l, ∃ h, n.attr "href" = some h ∧ isValidUrl h = true ∧
        resolve h baseUrl = some u ∧ isUrlInQueryParams u baseUrl = false) := by
  intro l
  induction l with
  | nil => simp
  | cons n l ih =>
    intro acc u
    rw [List.foldl_cons, ih, extract_step_mem resolve baseUrl acc n u]
    simp only [List.exists_mem_cons_iff]
    exact or_assoc

/-- A URL is in the extractor's output iff it comes from a scoped link
element with a valid href resolving to it, and it is not excluded by the
self-reference rule. -/
lemma mem_extractLinksFromHtml (resolve : String → String → Option String)
    (matchesSel : String → DomNode → Bool) (doc : List DomNode) (baseUrl : String)
    (cssSelector : Option String) (element : Option String) (u : String) :
    u ∈ extractLinksFromHtml resolve matchesSel doc baseUrl cssSelector element ↔
    ∃ n ∈ linkElementsOf matchesSel doc cssSelector element, ∃ h,
      n.attr "href" = some h ∧ isValidUrl h = true ∧
      resolve h baseUrl = some u ∧ isUrlInQueryParams u baseUrl = false := by
  unfold extractLinksFromHtml
  rw [mem_extract_foldl]
  simp

/-! ## Claim theorems -/

/-- C9: for every crawl with requested depth `d ≥ 0`, the `depth` field of
the returned `CollectionResult` equals `min d 5`, even when `d > 5`. -/
theorem c9_depth_clamped (fetchF : String → Option (String × String))
    (extractF : String → String → Option String → Option String → Except String (List String))
    (regexTest : String → String → Bool) (params : InitialUrlParams) :
    (collectWebLinks fetchF extractF regexTest params).depth = min params.depth 5 :=
  rfl

/-- C6: for every completed crawl, `totalUrlsCollected ≤ totalUrlsScanned`
holds in the returned stats, and `allCollectedUrls` contains no duplicate
URL string. -/
theorem c6_stats_and_unique (fetchF : String → Option (String × String))
    (extractF : String → String → Option String → Option String → Except String (List String))
    (regexTest : String → String → Bool) (params : InitialUrlParams) :
    (collectWebLinks fetchF extractF regexTest params).stats.totalUrlsCollected ≤
      (collectWebLinks fetchF extractF regexTest params).stats.totalUrlsScanned ∧
    (collectWebLinks fetchF extractF regexTest params).allCollectedUrls.Nodup := by
  have h := collectLinks_inv fetchF extractF regexTest params.filters params.selector
    params.element (min params.depth 5) (min params.depth 5 + 1) params.initialUrl 0 none
    ⟨[], [], [], [], 0, 0, 0⟩
    ⟨Nat.le_refl 0, List.nodup_nil, fun r hr => absurd hr (List.not_mem_nil r)⟩
  exact ⟨h.1, h.2.1⟩

/-- C4: every URL whose parsed pathname contains an entry of the fixed
default-exclusion list is rejected by `isUrlAllowed`, regardless of the
filters (and of any `baseUrl`). -/
theorem c4_default_exclusion_unconditional (regexTest : String → String → Bool)
    (url : String) (filters : Option (List Filter)) (baseUrl : Option String)
    (p : UrlParts) (hp : parseUrlModel url = some p)
    (hex : DEFAULT_EXCLUDED_PATHS.any (fun e => strContains p.pathname e) = true) :
    isUrlAllowed regexTest url filters baseUrl = false := by
  unfold isUrlAllowed
  rw [hp]
  simp [hex]

/-- C4 witness: `https://example.com/wp-admin/edit.php` is rejected even
under the filter list `[{domain: "example.com"}]`. -/
theorem c4_witness :
    isUrlAllowed (fun _ _ => false) "https://example.com/wp-admin/edit.php"
      (some [{ domain := some (.str "example.com"), pathPrefix := none,
               regex := none, keywords := none }]) none = false :=
  c4_default_exclusion_unconditional (fun _ _ => false)
    "https://example.com/wp-admin/edit.php"
    (some [{ domain := some (.str "example.com"), pathPrefix := none,
             regex := none, keywords := none }]) none
    ⟨"https:", "example.com", "/wp-admin/edit.php", [], ""⟩ (by decide) (by decide)

/-- C2 counterexample: the claim says the depth-0 (initial) URL is still
subject to the default-exclusion path list.  It is not: the URL Filter
itself rejects `https://example.com/wp-admin/` (default exclusion), yet a
crawl started at that URL with depth 0 records it in `allCollectedUrls` —
at depth 0 the filter is never consulted at all. -/
theorem c2_counterexample :
    isUrlAllowed (fun _ _ => false) "https://example.com/wp-admin/" none none = false ∧
    (collectWebLinks (fun _ => none) (fun _ _ _ _ => .ok []) (fun _ _ => false)
      { initialUrl := "https://example.com/wp-admin/", depth := 0, filters := none,
        selector := none, element := none }).allCollectedUrls =
      ["https://example.com/wp-admin/"] := by
  constructor
  · decide
  · decide

/-- C2 (amended): the URL at depth 0 is admitted without any filter
evaluation at all (neither the filter conditions, nor the default-exclusion
list, nor the self-reference check are consulted), while every URL at
depth ≥ 1 is run through the full URL Filter (with no `baseUrl`) and, if
rejected, the call only marks the URL visited and bumps the scanned
counter: nothing is recorded and nothing is recursed into. -/
theorem c2_depth0_exempt_depth_pos_filtered (fetchF : String → Option (String × String))
    (extractF : String → String → Option String → Option String → Except String (List String))
    (regexTest : String → String → Bool) (filters : Option (List Filter))
    (selector element : Option String) (maxDepth fuel : Nat) (url : String)
    (d : Nat) (src : Option String) (st : CrawlState) :
    (d = 0 → st.visitedUrls.contains url = false →
      url ∈ (collectLinks fetchF extractF regexTest filters selector element maxDepth
        (fuel + 1) url d src st).allCollectedUrls) ∧
    (0 < d → isUrlAllowed regexTest url filters none = false →
      collectLinks fetchF extractF regexTest filters selector element maxDepth
        (fuel + 1) url d src st =
      if st.visitedUrls.contains url then st
      else { st with visitedUrls := setAdd st.visitedUrls url,
                     totalUrlsScanned := st.totalUrlsScanned + 1 }) := by
  constructor
  · intro hd hv
    subst hd
    simp only [collectLinks]
    rw [if_neg (by rw [hv]; exact Bool.false_ne_true)]
    rw [if_pos (by norm_num)]
    repeat' split
    all_goals
      first
      | exact mem_setAdd_self _ _
      | (apply foldl_preserve _ (fun s => url ∈ s.allCollectedUrls)
          (fun s a hs => collectLinks_collected_mono fetchF extractF regexTest filters
            selector element maxDepth fuel a 1 _ s url hs);
         exact mem_setAdd_self _ _)
  · intro hd hfail
    by_cases hv : st.visitedUrls.contains url = true
    · simp only [collectLinks]
      rw [if_pos hv, if_pos hv]
    · simp only [collectLinks]
      rw [if_neg hv, if_neg hv]
      rw [if_neg (by rw [if_pos hd, hfail]; exact Bool.false_ne_true)]

/-- C2 witness: a depth-0 crawl state admits its URL unconditionally, and
a depth-1 call on a default-excluded URL leaves everything but the visited
set and the scanned counter untouched. -/
theorem c2_witness :
    ("https://a.com/" ∈ (collectLinks (fun _ => none) (fun _ _ _ _ => .ok [])
      (fun _ _ => false) none none none 0 1 "https://a.com/" 0 none
      ⟨[], [], [], [], 0, 0, 0⟩).allCollectedUrls) ∧
    (collectLinks (fun _ => none) (fun _ _ _ _ => .ok []) (fun _ _ => false) none
      none none 1 1 "https://x.com/wp-admin/" 1 none ⟨[], [], [], [], 0, 0, 0⟩ =
      ⟨["https://x.com/wp-admin/"], [], [], [], 1, 0, 0⟩) := by
  constructor
  · exact (c2_depth0_exempt_depth_pos_filtered (fun _ => none) (fun _ _ _ _ => .ok [])
      (fun _ _ => false) none none none 0 0 "https://a.com/" 0 none
      ⟨[], [], [], [], 0, 0, 0⟩).1 rfl (by decide)
  · exact Eq.trans
      ((c2_depth0_exempt_depth_pos_filtered (fun _ => none) (fun _ _ _ _ => .ok [])
        (fun _ _ => false) none none none 1 0 "https://x.com/wp-admin/" 1 none
        ⟨[], [], [], [], 0, 0, 0⟩).2 (by decide) (by decide)) (by decide)

/-- C1 counterexample: the claim says every `LinkRelationship.source` is
the initial URL or a member of `allCollectedUrls`.  But the source recorded
for extracted children is the *post-redirect* `finalUrl` of the fetched
page: with a fetch of `https://a.com/` redirecting to `https://b.com/`, the
crawl records the relationship `b → c` although `https://b.com/` is neither
the initial URL nor in `allCollectedUrls`. -/
theorem c1_counterexample :
    (collectWebLinks
      (fun u => if u == "https://a.com/" then some ("H", "https://b.com/") else none)
      (fun h _ _ _ => if h == "H" then .ok ["https://c.com/"] else .ok [])
      (fun _ _ => false)
      { initialUrl := "https://a.com/", depth := 1, filters := none,
        selector := none, element := none }).linkRelationships =
      [{ source := "https://b.com/", found := "https://c.com/" }] ∧
    (collectWebLinks
      (fun u => if u == "https://a.com/" then some ("H", "https://b.com/") else none)
      (fun h _ _ _ => if h == "H" then .ok ["https://c.com/"] else .ok [])
      (fun _ _ => false)
      { initialUrl := "https://a.com/", depth := 1, filters := none,
        selector := none, element := none }).allCollectedUrls =
      ["https://a.com/", "https://c.com/"] ∧
    ("https://b.com/" : String) ≠ "https://a.com/" ∧
    "https://b.com/" ∉ (["https://a.com/", "https://c.com/"] : List String) := by
  refine ⟨by decide, by decide, by decide, by decide⟩

/-- C1 (amended): every `LinkRelationship.found` value appears in
`allCollectedUrls` — unconditionally, for every fetch function, redirecting
or not; and, provided the fetch function reports no redirect (its
`finalUrl` always equals the requested URL), every `LinkRelationship.source`
value is the initial URL or a member of `allCollectedUrls`. -/
theorem c1_relationships_closed (fetchF : String → Option (String × String))
    (extractF : String → String → Option String → Option String → Except String (List String))
    (regexTest : String → String → Bool) (params : InitialUrlParams) :
    (∀ r ∈ (collectWebLinks fetchF extractF regexTest params).linkRelationships,
      r.found ∈ (collectWebLinks fetchF extractF regexTest params).allCollectedUrls) ∧
    ((∀ u p, fetchF u = some p → p.2 = u) →
      ∀ r ∈ (collectWebLinks fetchF extractF regexTest params).linkRelationships,
        r.source = params.initialUrl ∨
          r.source ∈ (collectWebLinks fetchF extractF regexTest params).allCollectedUrls) := by
  constructor
  · intro r hr
    exact (collectLinks_inv fetchF extractF regexTest params.filters params.selector
      params.element (min params.depth 5) (min params.depth 5 + 1) params.initialUrl 0 none
      ⟨[], [], [], [], 0, 0, 0⟩
      ⟨Nat.le_refl 0, List.nodup_nil, fun r hr => absurd hr (List.not_mem_nil r)⟩).2.2 r hr
  · intro hnr r hr
    exact Or.inr ((collectLinks_source_mem fetchF extractF regexTest params.filters
      params.selector params.element (min params.depth 5) hnr (min params.depth 5 + 1)
      params.initialUrl 0 none ⟨[], [], [], [], 0, 0, 0⟩
      (fun r hr => absurd hr (List.not_mem_nil r)) (fun s hs => by cases hs)) r hr)

/-- C1 witness: a redirect-free crawl of `https://a.com/` discovering
`https://c.com/` satisfies both closure properties, and the unconditional
found-closure also holds on a crawl whose fetch redirects. -/
theorem c1_witness :
    "https://c.com/" ∈ (collectWebLinks (fun u => some ("H", u))
      (fun _ _ _ _ => .ok ["https://c.com/"]) (fun _ _ => false)
      { initialUrl := "https://a.com/", depth := 1, filters := none,
        selector := none, element := none }).allCollectedUrls ∧
    (("https://a.com/" : String) = "https://a.com/" ∨
      "https://a.com/" ∈ (collectWebLinks (fun u => some ("H", u))
        (fun _ _ _ _ => .ok ["https://c.com/"]) (fun _ _ => false)
        { initialUrl := "https://a.com/", depth := 1, filters := none,
          selector := none, element := none }).allCollectedUrls) ∧
    "https://c.com/" ∈ (collectWebLinks
      (fun u => if u == "https://a.com/" then some ("H", "https://b.com/") else none)
      (fun h _ _ _ => if h == "H" then .ok ["https://c.com/"] else .ok [])
      (fun _ _ => false)
      { initialUrl := "https://a.com/", depth := 1, filters := none,
        selector := none, element := none }).allCollectedUrls :=
  ⟨(c1_relationships_closed (fun u => some ("H", u))
      (fun _ _ _ _ => .ok ["https://c.com/"]) (fun _ _ => false)
      { initialUrl := "https://a.com/", depth := 1, filters := none,
        selector := none, element := none }).1
    { source := "https://a.com/", found := "https://c.com/" } (by decide),
   (c1_relationships_closed (fun u => some ("H", u))
      (fun _ _ _ _ => .ok ["https://c.com/"]) (fun _ _ => false)
      { initialUrl := "https://a.com/", depth := 1, filters := none,
        selector := none, element := none }).2
    (fun u p hp => by rw [← Option.some.inj hp])
    { source := "https://a.com/", found := "https://c.com/" } (by decide),
   (c1_relationships_closed
      (fun u => if u == "https://a.com/" then some ("H", "https://b.com/") else none)
      (fun h _ _ _ => if h == "H" then .ok ["https://c.com/"] else .ok [])
      (fun _ _ => false)
      { initialUrl := "https://a.com/", depth := 1, filters := none,
        selector := none, element := none }).1
    { source := "https://b.com/", found := "https://c.com/" } (by decide)⟩

/-! ## C5: spec-side formulation of the filter-matching semantics -/

/-- Does the predicate hold of the single string, or of any array element? -/
def strOrListAny (p : String → Bool) : StrOrList → Bool
  | .str s => p s
  | .list l => l.any p

/-- Spec-side condition matching, following the spec's words: a condition
matches when every present field matches; a field holding an array matches
when any element matches; `domain` matches by substring containment in the
hostname, `pathPrefix` by literal prefix of the pathname, `regex` by
testing the pattern against the full URL string, `keywords` by substring
containment in the full URL string. -/
def specConditionMatches (regexTest : String → String → Bool)
    (url hostname pathname : String) (f : Filter) : Bool :=
  (match f.domain with
   | none => true
   | some v => strOrListAny (fun domain => strContains hostname domain) v) &&
  (match Filter.pathPrefix f with
   | none => true
   | some v => strOrListAny (fun pre => strStartsWith pathname pre) v) &&
  (match f.regex with
   | none => true
   | some v => strOrListAny (fun pat => regexTest pat url) v) &&
  (match f.keywords with
   | none => true
   | some v => strOrListAny (fun k => strContains url k) v)

lemma charsInfixOf_nil (l : List Char) : charsInfixOf [] l = true := by
  cases l <;> simp [charsInfixOf, charsPrefixOf]

lemma strContains_empty (s : String) : strContains s "" = true :=
  charsInfixOf_nil s.data

lemma strStartsWith_empty (s : String) : strStartsWith s "" = true := rfl

/-- The first field check of the condition loop (which folds the running
flag into the test) agrees with `flag && spec-field-match`, provided the
predicate accepts the empty string (true for all four field semantics). -/
lemma fieldStep1_eq (p : String → Bool) (hp : p "" = true) (cm : Bool)
    (v : Option StrOrList) :
    (cond (fieldTruthy v)
      (match v with
       | some (.list l) => cm && l.any p
       | some (.str s) => cm && p s
       | none => cm)
      cm) =
    (cm && (match v with | none => true | some w => strOrListAny p w)) := by
  cases v with
  | none => simp [fieldTruthy, strOrListAny]
  | some w =>
    cases w with
    | str s =>
      cases hse : s.isEmpty with
      | false => simp [fieldTruthy, hse, strOrListAny]
      | true =>
        rw [String.isEmpty_iff] at hse
        subst hse
        simp [fieldTruthy, strOrListAny, hp]
    | list l => simp [fieldTruthy, strOrListAny]

/-- The later field checks of the condition loop (guarded by the running
flag) agree with `flag && spec-field-match` under the same proviso. -/
lemma fieldStep2_eq (p : String → Bool) (hp : p "" = true) (cm : Bool)
    (v : Option StrOrList) :
    (cond (cm && fieldTruthy v)
      (match v with
       | some (.list l) => l.any p
       | some (.str s) => p s
       | none => cm)
      cm) =
    (cm && (match v with | none => true | some w => strOrListAny p w)) := by
  cases cm
  · simp
  · cases v with
    | none => simp [fieldTruthy, strOrListAny]
    | some w =>
      cases w with
      | str s =>
        cases hse : s.isEmpty with
        | false => simp [fieldTruthy, hse, strOrListAny]
        | true =>
          rw [String.isEmpty_iff] at hse
          subst hse
          simp [fieldTruthy, strOrListAny, hp]
      | list l => simp [fieldTruthy, strOrListAny]

/-- The code's sequential, short-circuiting condition evaluation computes
exactly the spec-side conjunction of the four field matches.  The only
platform fact needed is that the empty regex pattern matches every string
(`new RegExp("").test(s)` is `true`). -/
lemma conditionMatches_eq_spec (regexTest : String → String → Bool)
    (url hostname pathname : String) (f : Filter)
    (hreg : ∀ s, regexTest "" s = true) :
    conditionMatches regexTest url hostname pathname f =
      specConditionMatches regexTest url hostname pathname f := by
  simp only [conditionMatches, specConditionMatches]
  rw [fieldStep1_eq (fun domain => strContains hostname domain)
    (strContains_empty hostname) true f.domain]
  rw [fieldStep2_eq (fun p => strStartsWith pathname p)
    (strStartsWith_empty pathname)]
  rw [fieldStep2_eq (fun pat => regexTest pat url) (hreg url)]
  rw [fieldStep2_eq (fun k => strContains url k) (strContains_empty url)]
  simp [Bool.and_assoc]

/-- C5: for every parseable URL surviving the default-exclusion and
self-reference checks, `isUrlAllowed` returns `true` when the filter list
is absent or empty, and otherwise returns `true` iff some condition in the
list fully matches in the spec's sense (conditions ORed, a condition's
present fields ANDed, arrays satisfied by any element; `domain` by hostname
substring, `pathPrefix` by pathname prefix, `regex` by testing against the
full URL, `keywords` by full-URL substring). -/
theorem c5_filter_matching_semantics (regexTest : String → String → Bool)
    (url : String) (filters : Option (List Filter)) (baseUrl : Option String)
    (p : UrlParts) (hreg : ∀ s, regexTest "" s = true)
    (hp : parseUrlModel url = some p)
    (hex : DEFAULT_EXCLUDED_PATHS.any (fun e => strContains p.pathname e) = false)
    (hsr : (match baseUrl with
            | some b => isUrlInQueryParams url b
            | none => false) = false) :
    isUrlAllowed regexTest url filters baseUrl =
      (match filters with
       | none => true
       | some fs => fs.isEmpty ||
           fs.any (specConditionMatches regexTest url p.hostname p.pathname)) := by
  simp only [isUrlAllowed, hp]
  rw [if_neg (by rw [hex]; exact Bool.false_ne_true)]
  rw [if_neg (by rw [hsr]; exact Bool.false_ne_true)]
  cases filters with
  | none => rfl
  | some fs =>
    cases fs with
    | nil => rfl
    | cons f t =>
      have hfun : ∀ g, conditionMatches regexTest url p.hostname p.pathname g =
          specConditionMatches regexTest url p.hostname p.pathname g :=
        fun g => conditionMatches_eq_spec regexTest url p.hostname p.pathname g hreg
      simp only [List.isEmpty_cons, hfun]
      simp

/-- C5 witness: `https://sub.example.com/page` is admitted by the filter
list `[{domain: "example.com"}]` (hostname-substring semantics). -/
theorem c5_witness :
    isUrlAllowed (fun _ _ => true) "https://sub.example.com/page"
      (some [{ domain := some (.str "example.com"), pathPrefix := none,
               regex := none, keywords := none }]) none = true :=
  Eq.trans
    (c5_filter_matching_semantics (fun _ _ => true) "https://sub.example.com/page"
      (some [{ domain := some (.str "example.com"), pathPrefix := none,
               regex := none, keywords := none }]) none
      ⟨"https:", "sub.example.com", "/page", [], ""⟩
      (fun _ => rfl) (by decide) (by decide) rfl)
    (by decide)

/-- C8: the Fetcher never throws to its caller: it returns the failure
value (`none`) whenever the URL is blank or non-http(s), the HTTP request
rejects (transport error), the status is not in the success range, the
`content-type` header is absent or does not indicate HTML, or the body is
empty after trimming; it returns `some (html, finalUrl)` (the body paired
with the post-redirect URL) exactly when all checks pass. -/
theorem c8_fetcher_failure_modes (http : String → HttpOutcome) (url : String) (b f : String) :
    fetchUrlContent http url = some (b, f) ↔
      ((jsTrim url).isEmpty = false ∧
       ∃ p, parseUrlModel url = some p ∧
         (p.protocol = "http:" ∨ p.protocol = "https:") ∧
         ∃ ct, http url = HttpOutcome.response true (some ct) b f ∧
           strContains (lowerStr ct) "text/html" = true ∧
           (jsTrim b).isEmpty = false) := by
  unfold fetchUrlContent
  by_cases h1 : (jsTrim url).isEmpty = true
  · rw [if_pos h1]
    simp [h1]
  · rw [if_neg h1]
    have h1' : (jsTrim url).isEmpty = false := by simpa using h1
    rcases hp : parseUrlModel url with _ | p
    · simp [hp]
    · rcases hh : http url with m | ⟨ok, ct, body, finalUrl⟩
      · simp [hp, hh, h1']
      · simp only [hp, hh, h1']
        by_cases h2 : (["http:", "https:"].contains p.protocol) = true
        · rw [if_neg (by rw [h2]; exact Bool.false_ne_true)]
          have h2' : p.protocol = "http:" ∨ p.protocol = "https:" := by simpa using h2
          cases ok with
          | false => simp
          | true =>
            rw [if_neg (by exact Bool.false_ne_true)]
            cases ct with
            | none => simp
            | some c =>
              dsimp only
              by_cases h3 : strContains (lowerStr c) "text/html" = true
              · rw [if_neg (by rw [h3]; exact Bool.false_ne_true)]
                by_cases h4 : (jsTrim body).isEmpty = true
                · rw [if_pos h4]
                  simp [h4]
                  intro _ hb _ _
                  rw [← hb]
                  exact h4
                · rw [if_neg h4]
                  have h4' : (jsTrim body).isEmpty = false := by simpa using h4
                  simp [h2', h3, h4']
                  aesop
              · have h3f : strContains (lowerStr c) "text/html" = false := by simpa using h3
                rw [if_pos (by rw [h3f]; rfl)]
                simp [h3f]
        · have h2f : ¬(p.protocol = "http:" ∨ p.protocol = "https:") := by simpa using h2
          have h2' : (["http:", "https:"].contains p.protocol) = false := by simpa using h2
          rw [if_pos (by rw [h2']; rfl)]
          simp [h2f]


/-- C7: during extraction, a resolved candidate URL is discarded iff the
page's own URL appears inside its query-parameter values or fragment
(`isUrlInQueryParams`); a resolved URL exactly equal to the page's own URL
is never discarded by this rule. -/
theorem c7_share_link_exclusion (resolve : String → String → Option String)
    (matchesSel : String → DomNode → Bool) (doc : List DomNode) (baseUrl : String)
    (cssSelector : Option String) (element : Option String) (u : String) :
    (isUrlInQueryParams u baseUrl = true →
      u ∉ extractLinksFromHtml resolve matchesSel doc baseUrl cssSelector element) ∧
    (∀ n ∈ linkElementsOf matchesSel doc cssSelector element, ∀ h,
      n.attr "href" = some h → isValidUrl h = true → resolve h baseUrl = some u →
      (u ∈ extractLinksFromHtml resolve matchesSel doc baseUrl cssSelector element ↔
        isUrlInQueryParams u baseUrl = false)) ∧
    (u = baseUrl → isUrlInQueryParams u baseUrl = false) := by
  refine ⟨?_, ?_, ?_⟩
  · intro hq hmem
    rcases (mem_extractLinksFromHtml resolve matchesSel doc baseUrl cssSelector
      element u).mp hmem with ⟨n, hn, h, hh, hv, hr, hfalse⟩
    rw [hq] at hfalse
    cases hfalse
  · intro n hn h hh hv hr
    constructor
    · intro hmem
      rcases (mem_extractLinksFromHtml resolve matchesSel doc baseUrl cssSelector
        element u).mp hmem with ⟨n2, hn2, h2, hh2, hv2, hr2, hfalse⟩
      exact hfalse
    · intro hfalse
      exact (mem_extractLinksFromHtml resolve matchesSel doc baseUrl cssSelector
        element u).mpr ⟨n, hn, h, hh, hv, hr, hfalse⟩
  · rintro rfl
    simp [isUrlInQueryParams]

/-- C7 witness (Scenario D): on the page `https://example.com/blog/`, the
link `https://twitter.com/share?url=https://example.com/blog/` is excluded
from extraction; the page's own URL itself is never excluded by this rule. -/
theorem c7_witness :
    ("https://twitter.com/share?url=https://example.com/blog/" ∉
      extractLinksFromHtml (fun h _ => some h) (fun sel n => n.tag == sel)
        [DomNode.mk "a"
          [("href", "https://twitter.com/share?url=https://example.com/blog/")] []]
        "https://example.com/blog/" none none) ∧
    isUrlInQueryParams "https://example.com/blog/" "https://example.com/blog/" = false :=
  ⟨(c7_share_link_exclusion (fun h _ => some h) (fun sel n => n.tag == sel)
      [DomNode.mk "a"
        [("href", "https://twitter.com/share?url=https://example.com/blog/")] []]
      "https://example.com/blog/" none none
      "https://twitter.com/share?url=https://example.com/blog/").1 (by decide),
   (c7_share_link_exclusion (fun h _ => some h) (fun sel n => n.tag == sel)
      [DomNode.mk "a"
        [("href", "https://twitter.com/share?url=https://example.com/blog/")] []]
      "https://example.com/blog/" none none "https://example.com/blog/").2.2 rfl⟩

/-- C10: the self-reference check returns `false` when the URL equals the
target and when the URL does not parse — so an unparseable resolved link is
kept by extraction rather than discarded (the check fails open). -/
theorem c10_self_reference_fails_open (url target : String) :
    (url = target → isUrlInQueryParams url target = false) ∧
    (parseUrlModel url = none → isUrlInQueryParams url target = false) ∧
    (∀ (resolve : String → String → Option String)
        (matchesSel : String → DomNode → Bool) (doc : List DomNode)
        (sel el : Option String) (n : DomNode) (h : String),
      n ∈ linkElementsOf matchesSel doc sel el → n.attr "href" = some h →
      isValidUrl h = true → resolve h target = some url →
      parseUrlModel url = none →
      url ∈ extractLinksFromHtml resolve matchesSel doc target sel el) := by
  have hno : parseUrlModel url = none → isUrlInQueryParams url target = false := by
    intro hp
    unfold isUrlInQueryParams
    split
    · rfl
    · rw [hp]
  refine ⟨?_, hno, ?_⟩
  · rintro rfl
    simp [isUrlInQueryParams]
  · intro resolve matchesSel doc sel el n h hn hh hv hr hp
    exact (mem_extractLinksFromHtml resolve matchesSel doc target sel el url).mpr
      ⟨n, hn, h, hh, hv, hr, hno hp⟩

/-- C10 witness: equality and parse failure both yield `false`, and an
href resolving to the unparseable string `not a url` is still extracted. -/
theorem c10_witness :
    isUrlInQueryParams "abc" "abc" = false ∧
    isUrlInQueryParams "not a url" "https://example.com/" = false ∧
    "not a url" ∈ extractLinksFromHtml (fun _ _ => some "not a url")
      (fun sel n => n.tag == sel) [DomNode.mk "a" [("href", "zzz")] []]
      "https://example.com/" none none :=
  ⟨(c10_self_reference_fails_open "abc" "abc").1 rfl,
   (c10_self_reference_fails_open "not a url" "https://example.com/").2.1 (by decide),
   (c10_self_reference_fails_open "not a url" "https://example.com/").2.2
     (fun _ _ => some "not a url") (fun sel n => n.tag == sel)
     [DomNode.mk "a" [("href", "zzz")] []] none none
     (DomNode.mk "a" [("href", "zzz")] []) "zzz"
     (List.mem_cons_self _ _) rfl (by decide) rfl (by decide)⟩

/-- Concrete selector engine for the C3 inputs: tag-name selectors, with
the class selector `div.menu` matching `div` elements. -/
def cMatchC3 : String → DomNode → Bool := fun sel n =>
  match sel with
  | "div.menu" => n.tag == "div"
  | s => n.tag == s

/-- `<nav><a href="https://x.com/a1"></a></nav>` -/
def navDoc : DomNode :=
  .mk "nav" [] [.mk "a" [("href", "https://x.com/a1")] []]

/-- `<div class="menu"><a href="https://x.com/a1"></a>
<link href="https://x.com/l1"></div>` -/
def menuDoc : DomNode :=
  .mk "div" []
    [.mk "a" [("href", "https://x.com/a1")] [],
     .mk "link" [("href", "https://x.com/l1")] []]

/-- C3 counterexample: (i) the selector `nav` does not denote anchor
elements, yet extraction returns nothing — the matched `<nav>` nodes are
used directly because the *string* "nav" contains the letter `a` — even
though an `<a href>` descendant exists; (ii) for the selector `div.menu`
(no letter `a`), only `<a href>` descendants are used: the `<link href>`
descendant is not extracted, although the claim includes `<link href>`
descendants in the scope tier. -/
theorem c3_counterexample :
    (extractLinksFromHtml (fun h _ => some h) cMatchC3 [navDoc]
      "https://example.com/" (some "nav") none = []) ∧
    ((findAnchors (selectAll cMatchC3 "nav" [navDoc])).map
      (fun n => n.attr "href") = [some "https://x.com/a1"]) ∧
    (extractLinksFromHtml (fun h _ => some h) cMatchC3 [menuDoc]
      "https://example.com/" (some "div.menu") none = ["https://x.com/a1"]) ∧
    (((allNodesList (DomNode.children menuDoc)).filter isLinkCandidate).map
      (fun n => n.attr "href") =
      [some "https://x.com/a1", some "https://x.com/l1"]) := by
  refine ⟨?_, ?_, ?_, ?_⟩ <;> rfl

lemma isEmpty_eq_false_of_ne_nil {α : Type} {l : List α} (h : l ≠ []) :
    l.isEmpty = false := by
  cases l
  · exact absurd rfl h
  · rfl

/-- C3 (amended): with a `scopeSelector` that matches at least one node,
the scanned link elements are the matched nodes themselves when the
selector string contains the letter `a` or `A`, and otherwise the `<a href>`
descendants of the matched nodes; when the selector matches nothing the
extractor falls back to the `<a href>` descendants of nodes matching the
`scopeElement` tag, and then to every `<a href>`/`<link href>` in the
document; the extracted set consists of the resolved, valid,
non-self-referential hrefs of exactly those elements. -/
theorem c3_scope_tiers (matchesSel : String → DomNode → Bool) (doc : List DomNode)
    (sel : String) (el : Option String) :
    (selectAll matchesSel sel doc ≠ [] →
      linkElementsOf matchesSel doc (some sel) el =
        (if strContains sel "a" || strContains sel "A" then
          selectAll matchesSel sel doc
         else findAnchors (selectAll matchesSel sel doc))) ∧
    (∀ elName, el = some elName → selectAll matchesSel sel doc = [] →
      selectAll matchesSel elName doc ≠ [] →
      linkElementsOf matchesSel doc (some sel) el =
        findAnchors (selectAll matchesSel elName doc)) ∧
    (selectAll matchesSel sel doc = [] →
      (el = none ∨ ∃ elName, el = some elName ∧ selectAll matchesSel elName doc = []) →
      linkElementsOf matchesSel doc (some sel) el = allLinkCandidates doc) ∧
    (∀ (resolve : String → String → Option String) (baseUrl u : String),
      u ∈ extractLinksFromHtml resolve matchesSel doc baseUrl (some sel) el ↔
      ∃ n ∈ linkElementsOf matchesSel doc (some sel) el, ∃ h,
        n.attr "href" = some h ∧ isValidUrl h = true ∧
        resolve h baseUrl = some u ∧ isUrlInQueryParams u baseUrl = false) := by
  refine ⟨?_, ?_, ?_, ?_⟩
  · intro hne
    have hc : (!(selectAll matchesSel sel doc).isEmpty) = true := by
      rw [isEmpty_eq_false_of_ne_nil hne]; rfl
    simp only [linkElementsOf]
    rw [if_pos hc]
  · intro elName hel hempty hne
    subst hel
    have h1 : ¬((!(selectAll matchesSel sel doc).isEmpty) = true) := by
      rw [hempty]; exact Bool.false_ne_true
    have h2 : (!(selectAll matchesSel elName doc).isEmpty) = true := by
      rw [isEmpty_eq_false_of_ne_nil hne]; rfl
    simp only [linkElementsOf]
    rw [if_neg h1]
    rw [if_pos h2]
  · intro hempty hcases
    have h1 : ¬((!(selectAll matchesSel sel doc).isEmpty) = true) := by
      rw [hempty]; exact Bool.false_ne_true
    simp only [linkElementsOf]
    rw [if_neg h1]
    rcases hcases with rfl | ⟨elName, rfl, hempty2⟩
    · rfl
    · have h3 : ¬((!(selectAll matchesSel elName doc).isEmpty) = true) := by
        rw [hempty2]; exact Bool.false_ne_true
      dsimp only
      rw [if_neg h3]
  · intro resolve baseUrl u
    exact mem_extractLinksFromHtml resolve matchesSel doc baseUrl (some sel) el u

/-- C3 witness: on the concrete documents, the `div.menu` tier yields the
anchor descendants of the matched div, and a selector matching nothing with
no element falls back to all `<a href>`/`<link href>` elements. -/
theorem c3_witness :
    (linkElementsOf cMatchC3 [menuDoc] (some "div.menu") none =
      findAnchors (selectAll cMatchC3 "div.menu" [menuDoc])) ∧
    (linkElementsOf cMatchC3 [navDoc] (some "section") none =
      allLinkCandidates [navDoc]) := by
  constructor
  · exact Eq.trans
      ((c3_scope_tiers cMatchC3 [menuDoc] "div.menu" none).1 (List.cons_ne_nil _ _))
      (by rfl)
  · exact (c3_scope_tiers cMatchC3 [navDoc] "section" none).2.2.1 rfl (Or.inl rfl)


end WebLinkCollector
